import Mathlib

/-!
Verification of the DuckDuckGo HTML-scraping search library.

This file shallowly embeds the library's core (`src/index.ts`) in Lean:

* platform capabilities used by the code (JS string search, percent
  decoding, `URLSearchParams`, the DOM/cheerio selection layer, `Headers`)
  are modelled as explicit Lean functions or as abstract inputs;
* pure program functions (`buildSearchUrl`, `getExponentialBackoffDelay`,
  `extractUrl`, `parseResults`, `parseCookie`, `updateCookieJar`,
  `buildCookieHeader`, `enforceRequestInterval`) become Lean functions of
  the same name;
* the stateful orchestrator `searchDuckDuckGo` becomes a function from an
  abstract fetch environment and an explicit shared state (cookie jar,
  last-request timestamp) to an outcome, the successor state and a trace of
  observable events (URL builds, rate-limit waits, fetches, backoff sleeps);
* JS numbers appearing in timing and backoff computations are modelled as
  rationals; counters and sizes as integers.

Theorems below settle the frozen claims about the specification.
-/

namespace DDG

/-- JS `needle.isPrefixOf`-style prefix test on character lists. -/
def listIsPrefixOf : List Char → List Char → Bool
  | [], _ => true
  | _ :: _, [] => false
  | a :: as, b :: bs => a == b && listIsPrefixOf as bs

/-- Substring occurrence test on character lists (needle, haystack). -/
def listIsInfixOf (needle : List Char) : List Char → Bool
  | [] => needle.isEmpty
  | c :: rest => listIsPrefixOf needle (c :: rest) || listIsInfixOf needle rest

/-- Model of JS `String.prototype.includes`: does `s` contain `pattern`? -/
def jsIncludes (s pattern : String) : Bool :=
  listIsInfixOf pattern.data s.data

/-- Model of JS `String.prototype.toLowerCase`, restricted to the ASCII
letters that matter for the cookie jar's case-insensitive `deleted` test. -/
def jsToLowerCase (s : String) : String :=
  String.mk (s.data.map Char.toLower)

/-- The whitespace characters JS `String.prototype.trim` strips, restricted
to the ASCII ones. -/
def isJsWhitespace (c : Char) : Bool :=
  c == ' ' || c == '\t' || c == '\n' || c == '\r' || c == '\x0b' || c == '\x0c'

/-- Model of JS `String.prototype.trim`. -/
def jsTrim (s : String) : String :=
  String.mk (((s.data.dropWhile isJsWhitespace).reverse.dropWhile isJsWhitespace).reverse)

/-- Accumulator loop for `jsSplitChar`. -/
def splitCharAux (sep : Char) : List Char → List Char → List String
  | [], acc => [String.mk acc.reverse]
  | c :: rest, acc =>
    if c == sep then String.mk acc.reverse :: splitCharAux sep rest []
    else splitCharAux sep rest (c :: acc)

/-- Model of JS `String.prototype.split` with a one-character separator. -/
def jsSplitChar (s : String) (sep : Char) : List String :=
  splitCharAux sep s.data []

/-- Model of JS `String.prototype.startsWith`. -/
def jsStartsWith (s pre : String) : Bool :=
  listIsPrefixOf pre.data s.data

/-- Model of JS `Array.prototype.join`. -/
def jsJoin (sep : String) : List String → String
  | [] => ""
  | [x] => x
  | x :: y :: rest => x ++ sep ++ jsJoin sep (y :: rest)

/-- Value of a hexadecimal digit character, if it is one. -/
def hexDigitVal (c : Char) : Option Nat :=
  if '0' ≤ c ∧ c ≤ '9' then some (c.toNat - '0'.toNat)
  else if 'a' ≤ c ∧ c ≤ 'f' then some (c.toNat - 'a'.toNat + 10)
  else if 'A' ≤ c ∧ c ≤ 'F' then some (c.toNat - 'A'.toNat + 10)
  else none

/-- UTF-8 encoding of a single character as a byte list. -/
def charUtf8Bytes (c : Char) : List Nat :=
  let n := c.toNat
  if n < 0x80 then [n]
  else if n < 0x800 then [0xC0 + n / 64, 0x80 + n % 64]
  else if n < 0x10000 then
    [0xE0 + n / 4096, 0x80 + (n / 64) % 64, 0x80 + n % 64]
  else
    [0xF0 + n / 262144, 0x80 + (n / 4096) % 64, 0x80 + (n / 64) % 64, 0x80 + n % 64]

/-- Is `b` a UTF-8 continuation byte? -/
def isContByte (b : Nat) : Bool :=
  0x80 ≤ b && b ≤ 0xBF

/-- Decode one UTF-8 scalar from the front of a byte list, with the strict
validation JS `decodeURIComponent` performs (rejecting overlong encodings,
surrogates and out-of-range scalars). -/
def utf8Step : List Nat → Option (Char × List Nat)
  | [] => none
  | b0 :: rest =>
    if b0 < 0x80 then some (Char.ofNat b0, rest)
    else if 0xC2 ≤ b0 && b0 ≤ 0xDF then
      match rest with
      | b1 :: rest2 =>
        if isContByte b1 then
          some (Char.ofNat ((b0 - 0xC0) * 64 + (b1 - 0x80)), rest2)
        else none
      | [] => none
    else if 0xE0 ≤ b0 && b0 ≤ 0xEF then
      match rest with
      | b1 :: b2 :: rest3 =>
        if isContByte b1 && isContByte b2 then
          let cp := (b0 - 0xE0) * 4096 + (b1 - 0x80) * 64 + (b2 - 0x80)
          if 0x800 ≤ cp && !(0xD800 ≤ cp && cp ≤ 0xDFFF) then
            some (Char.ofNat cp, rest3)
          else none
        else none
      | _ => none
    else if 0xF0 ≤ b0 && b0 ≤ 0xF4 then
      match rest with
      | b1 :: b2 :: b3 :: rest4 =>
        if isContByte b1 && isContByte b2 && isContByte b3 then
          let cp := (b0 - 0xF0) * 262144 + (b1 - 0x80) * 4096 + (b2 - 0x80) * 64 + (b3 - 0x80)
          if 0x10000 ≤ cp && cp ≤ 0x10FFFF then
            some (Char.ofNat cp, rest4)
          else none
        else none
      | _ => none
    else none

/-- Strict UTF-8 decoding of a byte list (fuelled; fuel = list length). -/
def utf8DecodeAux : Nat → List Nat → Option (List Char)
  | _, [] => some []
  | 0, _ :: _ => none
  | fuel + 1, l =>
    match utf8Step l with
    | none => none
    | some (c, rest) => (utf8DecodeAux fuel rest).map (fun cs => c :: cs)

/-- Strict UTF-8 decoding of a byte list; fails on any invalid sequence. -/
def utf8Decode (l : List Nat) : Option (List Char) :=
  utf8DecodeAux l.length l

/-- Lenient UTF-8 decoding (fuelled): invalid bytes become U+FFFD, as in the
WHATWG decoder backing `URLSearchParams`. -/
def utf8DecodeLenientAux : Nat → List Nat → List Char
  | _, [] => []
  | 0, _ :: _ => []
  | fuel + 1, l =>
    match utf8Step l with
    | some (c, rest) => c :: utf8DecodeLenientAux fuel rest
    | none => Char.ofNat 0xFFFD :: utf8DecodeLenientAux fuel l.tail

/-- Lenient UTF-8 decoding of a byte list. -/
def utf8DecodeLenient (l : List Nat) : List Char :=
  utf8DecodeLenientAux l.length l

/-- Percent-decode a character list to bytes, strictly: a `%` not followed by
two hex digits is an error, as in JS `decodeURIComponent` (which throws a
`URIError` there). Non-escape characters contribute their UTF-8 bytes. -/
def percentDecodeBytesStrict : List Char → Option (List Nat)
  | [] => some []
  | '%' :: c1 :: c2 :: rest =>
    match hexDigitVal c1, hexDigitVal c2 with
    | some hi, some lo => (percentDecodeBytesStrict rest).map (fun bs => (16 * hi + lo) :: bs)
    | _, _ => none
  | '%' :: _ => none
  | c :: rest => (percentDecodeBytesStrict rest).map (fun bs => charUtf8Bytes c ++ bs)

/-- Model of JS `decodeURIComponent`: strict percent-decoding followed by
strict UTF-8 decoding; `none` models the thrown `URIError`. -/
def decodeURIComponentM (s : String) : Option String :=
  (percentDecodeBytesStrict s.data).bind (fun bs => (utf8Decode bs).map String.mk)

/-- Percent-decode a character list to bytes for `URLSearchParams`
(`application/x-www-form-urlencoded` rules): `+` becomes a space, a
malformed `%`-escape is kept literally, never an error. -/
def formDecodeBytes : List Char → List Nat
  | [] => []
  | '+' :: rest => 32 :: formDecodeBytes rest
  | '%' :: c1 :: c2 :: rest =>
    match hexDigitVal c1, hexDigitVal c2 with
    | some hi, some lo => (16 * hi + lo) :: formDecodeBytes rest
    | _, _ => charUtf8Bytes '%' ++ formDecodeBytes (c1 :: c2 :: rest)
  | '%' :: rest => charUtf8Bytes '%' ++ formDecodeBytes rest
  | c :: rest => charUtf8Bytes c ++ formDecodeBytes rest

/-- Lenient component decode used by the `URLSearchParams` model. -/
def formDecode (s : String) : String :=
  String.mk (utf8DecodeLenient (formDecodeBytes s.data))

/-- Split a `name=value` segment at its first `=` (WHATWG: a segment with no
`=` is a name with empty value). -/
def splitFirstEq (seg : String) : String × String :=
  match seg.data.findIdx? (fun c => c == '=') with
  | none => (seg, "")
  | some i => (String.mk (seg.data.take i), String.mk (seg.data.drop (i + 1)))

/-- Model of `new URLSearchParams(qs)`: strip one leading `?`, split on `&`,
drop empty segments, split each segment at its first `=`, and decode names
and values under form-urlencoded rules. -/
def parseURLSearchParams (qs : String) : List (String × String) :=
  let s := if jsStartsWith qs "?" then String.mk qs.data.tail else qs
  (jsSplitChar s '&').filterMap (fun seg =>
    if seg = "" then none
    else
      let nv := splitFirstEq seg
      some (formDecode nv.1, formDecode nv.2))

/-- Model of `URLSearchParams.get`: first value for the name, `none` for a
missing name (JS `null`). -/
def qsGet (params : List (String × String)) (name : String) : Option String :=
  (params.find? (fun p => p.1 == name)).map (fun p => p.2)

/-- Embedding of `extractUrl` (src/index.ts:313-335): an href starting with
`/` has its query string (the second `split('?')` element) parsed; the
`uddg` parameter, or `rut` when `uddg` is JS-`null`, is percent-decoded;
a missing/empty query string, a missing selection, an empty selected value
or a decode failure yields `undefined`. Any other href is returned as is. -/
def extractUrl (rawHref : String) : Option String :=
  if jsStartsWith rawHref "/" then
    match (jsSplitChar rawHref '?').get? 1 with
    | none => none
    | some queryString =>
      if queryString = "" then none
      else
        let params := parseURLSearchParams queryString
        match (qsGet params "uddg").orElse (fun _ => qsGet params "rut") with
        | none => none
        | some encodedUrl =>
          if encodedUrl = "" then none else decodeURIComponentM encodedUrl
  else some rawHref

/-- One record returned by the search (src/index.ts:3-7). -/
structure DuckDuckGoResult where
  title : String
  url : String
  description : String
deriving DecidableEq

/-- Safe-search levels (src/index.ts:9). -/
inductive DuckDuckGoSafeSearch where
  | off
  | moderate
  | strict
deriving DecidableEq

/-- Search options (src/index.ts:11-41). `signal` is omitted: cancellation
is a transport capability outside the embedded logic. Absent options are
`none` (JS `undefined`); numbers are integers. -/
structure DuckDuckGoSearchOptions where
  locale : Option String
  offset : Option Int
  safeSearch : Option DuckDuckGoSafeSearch
  maxResults : Option Int
  userAgent : Option String
deriving DecidableEq

/-- The `kp` value for each safe-search level (src/index.ts:49-53). -/
def SAFE_SEARCH_PARAM : DuckDuckGoSafeSearch → String
  | .off => "-2"
  | .moderate => "0"
  | .strict => "1"

/-- The fixed HTML endpoint (src/index.ts:45). -/
def DUCKDUCKGO_HTML_ENDPOINT : String := "https://duckduckgo.com/html/"

/-- Maximum number of challenge-retry attempts (src/index.ts:56). -/
def MAX_RETRIES : Nat := 5

/-- Minimum gap between outbound requests in ms (src/index.ts:58). -/
def MIN_REQUEST_INTERVAL_MS : ℚ := 800

/-- Upper bound of the rate-limiter jitter in ms (src/index.ts:60). -/
def REQUEST_JITTER_MS : ℚ := 200

/-- A request URL, kept structured: the endpoint and the ordered query
parameters `URLSearchParams` would serialize (src/index.ts:197). -/
structure BuiltUrl where
  endpoint : String
  params : List (String × String)
deriving DecidableEq

/-- Embedding of `buildSearchUrl` (src/index.ts:181-198). `q` is always
set; `kl` only when `options.locale` is JS-truthy (present and non-empty);
`s` whenever `options.offset` is a number, clamped to `max 0`; `kp` when a
safe-search level is present (every level is a truthy string). -/
def buildSearchUrl (query : String) (options : DuckDuckGoSearchOptions) : BuiltUrl :=
  let params := [("q", query)]
  let params :=
    match options.locale with
    | some l => if l = "" then params else params ++ [("kl", l)]
    | none => params
  let params :=
    match options.offset with
    | some n => params ++ [("s", toString (max 0 n))]
    | none => params
  let params :=
    match options.safeSearch with
    | some level => params ++ [("kp", SAFE_SEARCH_PARAM level)]
    | none => params
  { endpoint := DUCKDUCKGO_HTML_ENDPOINT, params := params }

/-- Embedding of `getExponentialBackoffDelay` (src/index.ts:90-102) over
rationals, with the random draw `jitter = Math.random() * baseDelay` made
an explicit argument. The call sites use the defaults `baseDelay = 100`,
`maxDelay = 120000`. -/
def getExponentialBackoffDelay (attempt : Nat) (jitter baseDelay maxDelay : ℚ) : ℚ :=
  min (baseDelay * 2 ^ attempt + jitter) maxDelay

/-- Embedding of `parseCookie` (src/index.ts:280-301): keep the part before
the first `;`, require an `=` in it, split at the first `=`, trim both
sides, and reject an empty name. -/
def parseCookie (cookie : String) : Option (String × String) :=
  match jsSplitChar cookie ';' with
  | [] => none
  | nameValue :: _ =>
    match nameValue.data.findIdx? (fun c => c == '=') with
    | none => none
    | some separatorIndex =>
      let name := jsTrim (String.mk (nameValue.data.take separatorIndex))
      let value := jsTrim (String.mk (nameValue.data.drop (separatorIndex + 1)))
      if name = "" then none else some (name, value)

/-- JS `Map.set` on an association list: overwrite in place if the key is
present, else append (insertion order preserved, as in a JS `Map`). -/
def mapSet (m : List (String × String)) (k v : String) : List (String × String) :=
  if m.any (fun p => p.1 == k) then
    m.map (fun p => if p.1 == k then (k, v) else p)
  else m ++ [(k, v)]

/-- JS `Map.delete` on an association list. -/
def mapDelete (m : List (String × String)) (k : String) : List (String × String) :=
  m.filter (fun p => p.1 != k)

/-- Embedding of `updateCookieJar` (src/index.ts:263-278): unparsable
entries are skipped; an empty or case-insensitively `deleted` value removes
the name; any other value is set/overwritten. -/
def updateCookieJar (jar : List (String × String)) (cookies : List String) :
    List (String × String) :=
  cookies.foldl
    (fun j cookie =>
      match parseCookie cookie with
      | none => j
      | some nv =>
        if nv.2 = "" ∨ jsToLowerCase nv.2 = "deleted" then mapDelete j nv.1
        else mapSet j nv.1 nv.2)
    jar

/-- Embedding of `buildCookieHeader` (src/index.ts:303-311). -/
def buildCookieHeader (jar : List (String × String)) : Option String :=
  if jar = [] then none
  else some (jsJoin "; " (jar.map (fun p => p.1 ++ "=" ++ p.2)))

/-- Wait (ms) that `enforceRequestInterval` (src/index.ts:231-244) imposes
when entered at time `now` with recorded timestamp `last` and jitter draw
`jitter = Math.random() * REQUEST_JITTER_MS`: zero when no request was
recorded (`last = 0`, JS-falsy) or the interval has already passed,
otherwise the remaining interval plus the jitter. -/
def enforceWait (last now jitter : ℚ) : ℚ :=
  if last = 0 then 0
  else if now - last < MIN_REQUEST_INTERVAL_MS then
    MIN_REQUEST_INTERVAL_MS - (now - last) + jitter
  else 0

/-- What the model observes of one call to `enforceRequestInterval`: the
clock reading `now` on entry, the jitter draw, and `start`, the clock
reading stored into `lastRequestTimestamp` after the wait — the request's
start time. -/
structure RequestObservation where
  now : ℚ
  jitter : ℚ
  start : ℚ
deriving DecidableEq

/-- Faithfulness of one observation to `enforceRequestInterval`, given the
previously recorded timestamp `last`: the clock is positive and monotone
(`last ≤ now`), the jitter draw is non-negative, and the post-wait clock
reading is at least `now` plus the computed wait. -/
def ValidObservation (last : ℚ) (o : RequestObservation) : Prop :=
  0 < o.now ∧ last ≤ o.now ∧ 0 ≤ o.jitter ∧ o.now + enforceWait last o.now o.jitter ≤ o.start

/-- A sequence of requests through the shared rate limiter, each observation
valid against the timestamp its predecessor recorded. -/
def ValidTrace : ℚ → List RequestObservation → Prop
  | _, [] => True
  | last, o :: rest => ValidObservation last o ∧ ValidTrace o.start rest

/-- The recorded start times of a request sequence. -/
def traceStarts : ℚ → List RequestObservation → List ℚ
  | _, [] => []
  | _, o :: rest => o.start :: traceStarts o.start rest

/-- Adjacent elements of the list are at least `g` apart. -/
def GapsAtLeast (g : ℚ) : List ℚ → Prop
  | [] => True
  | [_] => True
  | a :: b :: rest => a + g ≤ b ∧ GapsAtLeast g (b :: rest)

/-- A result container as the DOM capability presents it to `parseResults`
(src/index.ts:204-214): the first title anchor's `href` attribute (`none`
when there is no anchor or attribute, in which case its text is empty), the
anchor's untrimmed text, and the first snippet's untrimmed text (empty when
absent). -/
structure ResultContainer where
  href : Option String
  titleText : String
  snippetText : String
deriving DecidableEq

/-- Loop body of `parseResults` (src/index.ts:204-226) with the `results`
array explicit: stop scanning once the limit is reached, skip containers
with a falsy href or empty trimmed title or unresolvable href, else push. -/
def parseResultsGo (maxResults : Int) :
    List ResultContainer → List DuckDuckGoResult → List DuckDuckGoResult
  | [], acc => acc
  | c :: rest, acc =>
    if maxResults ≤ (acc.length : Int) then acc
    else
      match c.href with
      | none => parseResultsGo maxResults rest acc
      | some href =>
        let title := jsTrim c.titleText
        if href = "" ∨ title = "" then parseResultsGo maxResults rest acc
        else
          match extractUrl href with
          | none => parseResultsGo maxResults rest acc
          | some url =>
            parseResultsGo maxResults rest
              (acc ++ [{ title := title, url := url, description := jsTrim c.snippetText }])

/-- Embedding of `parseResults` (src/index.ts:200-229), over the abstract
container list the DOM capability extracts from the markup. -/
def parseResults (containers : List ResultContainer) (maxResults : Int) :
    List DuckDuckGoResult :=
  parseResultsGo maxResults containers []

/-- A fetched page: its raw markup (used by the challenge check) together
with the result containers the DOM capability finds in that markup. -/
structure Page where
  raw : String
  containers : List ResultContainer
deriving DecidableEq

/-- Outcome the transport yields for one fetch: a page with its set-cookie
entries, a non-2xx status with its set-cookie entries (cookies are ingested
before the status check fails, src/index.ts:172-176), or a transport
rejection. -/
inductive FetchOutcome where
  | success (page : Page) (setCookies : List String)
  | httpError (status : Nat) (setCookies : List String)
  | networkError (message : String)

/-- The ambient world of one `searchDuckDuckGo` call: the transport outcome
of the i-th fetch, the backoff jitter draw at attempt i, and the clock
value the rate limiter records before the i-th fetch. -/
structure SearchEnv where
  fetchResult : Nat → FetchOutcome
  backoffJitter : Nat → ℚ
  requestTimestamp : Nat → ℚ

/-- The module-level shared state (src/index.ts:66-67). -/
structure SearchState where
  sessionCookies : List (String × String)
  lastRequestTimestamp : ℚ
deriving DecidableEq

/-- Observable events of one call, in order. -/
inductive SearchEvent where
  | urlBuilt (url : BuiltUrl)
  | rateLimitWait
  | fetchRequest (attempt : Nat)
  | backoffSleep (attempt : Nat) (ms : ℚ)
deriving DecidableEq

/-- Errors as thrown by the code: a `DuckDuckGoSearchError` without cause,
a `DuckDuckGoSearchError` wrapping a cause (src/index.ts:73-81), or a plain
`Error` (src/index.ts:175). -/
inductive JsErrorModel where
  | ddgError (message : String)
  | ddgErrorWith (message : String) (cause : JsErrorModel)
  | jsError (message : String)
deriving DecidableEq

/-- Embedding of `requestSearchPage` (src/index.ts:147-179) at attempt `i`:
build the URL, pass the rate limiter (recording the clock), fetch; on any
response, ingest its set-cookie entries; fail on a non-2xx status or a
transport rejection. -/
def requestSearchPage (query : String) (options : DuckDuckGoSearchOptions)
    (env : SearchEnv) (i : Nat) (st : SearchState) :
    Except JsErrorModel Page × SearchState × List SearchEvent :=
  let url := buildSearchUrl query options
  let events := [SearchEvent.urlBuilt url, SearchEvent.rateLimitWait, SearchEvent.fetchRequest i]
  let st1 : SearchState :=
    { sessionCookies := st.sessionCookies, lastRequestTimestamp := env.requestTimestamp i }
  match env.fetchResult i with
  | .success page setCookies =>
    (.ok page,
     { sessionCookies := updateCookieJar st1.sessionCookies setCookies,
       lastRequestTimestamp := st1.lastRequestTimestamp },
     events)
  | .httpError status setCookies =>
    (.error (.jsError ("DuckDuckGo responded with status " ++ toString status)),
     { sessionCookies := updateCookieJar st1.sessionCookies setCookies,
       lastRequestTimestamp := st1.lastRequestTimestamp },
     events)
  | .networkError message =>
    (.error (.jsError message), st1, events)

/-- The retry loop inside `searchDuckDuckGo` (src/index.ts:128-141):
`remaining` counts the iterations left of `MAX_RETRIES`, `i` the current
attempt index. A challenged page sleeps the backoff delay (defaults
`baseDelay = 100`, `maxDelay = 120000`) and retries; an unchallenged page
is parsed; exhaustion throws `Max attempts exceeded`. -/
def searchRetryLoop (query : String) (options : DuckDuckGoSearchOptions) (env : SearchEnv)
    (maxResults : Int) :
    Nat → Nat → SearchState →
    Except JsErrorModel (List DuckDuckGoResult) × SearchState × List SearchEvent
  | _, 0, st => (.error (.ddgError "Max attempts exceeded"), st, [])
  | i, remaining + 1, st =>
    match requestSearchPage query options env i st with
    | (.error e, st1, events) => (.error e, st1, events)
    | (.ok page, st1, events) =>
      if jsIncludes page.raw "challenge-form" then
        let ms := getExponentialBackoffDelay i (env.backoffJitter i) 100 120000
        let next := searchRetryLoop query options env maxResults (i + 1) remaining st1
        (next.1, next.2.1, events ++ [SearchEvent.backoffSleep i ms] ++ next.2.2)
      else
        (.ok (parseResults page.containers maxResults), st1, events)

/-- Embedding of `searchDuckDuckGo` (src/index.ts:109-145): validate the
trimmed query and `maxResults` (default 10) before anything else, then run
the retry loop; any error escaping the `try` block is re-wrapped in a
`DuckDuckGoSearchError` with message `Failed to search DuckDuckGo` and the
original error as its cause. -/
def searchDuckDuckGo (query : String) (options : DuckDuckGoSearchOptions)
    (env : SearchEnv) (st : SearchState) :
    Except JsErrorModel (List DuckDuckGoResult) × SearchState × List SearchEvent :=
  let trimmedQuery := jsTrim query
  if trimmedQuery = "" then
    (.error (.ddgError "Search query must not be empty"), st, [])
  else
    let maxResults := options.maxResults.getD 10
    if maxResults ≤ 0 then
      (.error (.ddgError "maxResults must be greater than 0"), st, [])
    else
      match searchRetryLoop trimmedQuery options env maxResults 0 MAX_RETRIES st with
      | (.ok results, st1, events) => (.ok results, st1, events)
      | (.error e, st1, events) =>
        (.error (.ddgErrorWith "Failed to search DuckDuckGo" e), st1, events)

/-- Link resolution exactly as the specification's sentence describes it
(refinement comparison definition, following the spec's words): take the
`uddg` parameter value, falling back to `rut` when `uddg` is absent, and
percent-decode it; skip only when the href has no query string, neither
parameter is present, or decoding fails. It differs from `extractUrl` in
not skipping an empty selected value. -/
def specLinkResolution (rawHref : String) : Option String :=
  if jsStartsWith rawHref "/" then
    match (jsSplitChar rawHref '?').get? 1 with
    | none => none
    | some queryString =>
      if queryString = "" then none
      else
        let params := parseURLSearchParams queryString
        match (qsGet params "uddg").orElse (fun _ => qsGet params "rut") with
        | none => none
        | some encodedUrl => decodeURIComponentM encodedUrl
  else some rawHref

/-- The parameter value `extractUrl` selects from a redirect href before
the emptiness check and the percent-decode: the second `split('?')`
component, if non-empty, parsed as a query string, with `uddg` preferred
and `rut` consulted only when `uddg` is JS-`null`. -/
def ddgSelectedParam (href : String) : Option String :=
  match (jsSplitChar href '?').get? 1 with
  | none => none
  | some qs =>
    if qs = "" then none
    else (qsGet (parseURLSearchParams qs) "uddg").orElse
      (fun _ => qsGet (parseURLSearchParams qs) "rut")

/-- An absolute URL in the sense of the spec's vocabulary: a non-empty
alphabetic-initial scheme of scheme characters followed by `:`. -/
def isAbsoluteUrl (s : String) : Bool :=
  match s.data.findIdx? (fun c => c == ':') with
  | none => false
  | some i =>
    let scheme := s.data.take i
    !scheme.isEmpty
      && scheme.head?.elim false Char.isAlpha
      && scheme.all (fun c => c.isAlphanum || c == '+' || c == '-' || c == '.')

/-- A result container the claims call well-formed: it has a title link
with a non-empty href, non-empty trimmed title text, and an href that
`extractUrl` resolves. -/
def wellFormedContainer (c : ResultContainer) : Bool :=
  match c.href with
  | none => false
  | some href => href != "" && jsTrim c.titleText != "" && (extractUrl href).isSome

/-- The record `parseResults` builds from a well-formed container. -/
def containerRecord (c : ResultContainer) : DuckDuckGoResult :=
  { title := jsTrim c.titleText,
    url := (c.href.bind extractUrl).getD "",
    description := jsTrim c.snippetText }

/-- The relation between a container and a record extracted from it. -/
def ProducedFrom (c : ResultContainer) (r : DuckDuckGoResult) : Prop :=
  ∃ href, c.href = some href ∧ href ≠ "" ∧ jsTrim c.titleText ≠ ""
    ∧ r.title = jsTrim c.titleText ∧ r.description = jsTrim c.snippetText
    ∧ extractUrl href = some r.url

/-- A page whose markup is just the challenge marker. -/
def challengePage : Page := { raw := "challenge-form", containers := [] }

/-- An environment in which every fetch returns a challenge page. -/
def envChallenge : SearchEnv :=
  { fetchResult := fun _ => .success challengePage [],
    backoffJitter := fun _ => 0,
    requestTimestamp := fun _ => 1 }

/-- An environment in which every fetch yields an HTTP 500 response. -/
def envHttp500 : SearchEnv :=
  { fetchResult := fun _ => .httpError 500 [],
    backoffJitter := fun _ => 0,
    requestTimestamp := fun _ => 1 }

/-- The initial module state (src/index.ts:66-67). -/
def initialState : SearchState := { sessionCookies := [], lastRequestTimestamp := 0 }

/-- Options with every field absent. -/
def noOptions : DuckDuckGoSearchOptions := ⟨none, none, none, none, none⟩

/-- C9: for every attempt index and every jitter draw in `[0, baseDelay)`,
the backoff delay is `min (baseDelay * 2 ^ attempt + jitter) maxDelay` at
the defaults `baseDelay = 100`, `maxDelay = 120000`; below the cap (any
attempt up to 10) the delay is exactly the exponential term plus jitter,
and it never exceeds the cap. The embedded computation is a pure function,
so it has no side effects. -/
theorem backoff_delay_formula (attempt : Nat) (jitter : ℚ)
    (h0 : 0 ≤ jitter) (h1 : jitter < 100) :
    getExponentialBackoffDelay attempt jitter 100 120000
        = min (100 * 2 ^ attempt + jitter) 120000
    ∧ getExponentialBackoffDelay attempt jitter 100 120000 ≤ 120000
    ∧ (attempt ≤ 10 →
        getExponentialBackoffDelay attempt jitter 100 120000 = 100 * 2 ^ attempt + jitter) := by
  refine ⟨rfl, min_le_right _ _, fun ha => ?_⟩
  have hp : (2 : ℚ) ^ attempt ≤ 2 ^ 10 := by
    exact pow_le_pow_right (by norm_num) ha
  have hb : (2 : ℚ) ^ 10 = 1024 := by norm_num
  unfold getExponentialBackoffDelay
  rw [min_eq_left]
  nlinarith [hp, hb]

/-- Witness for C9 at attempt 3, jitter 7. -/
theorem backoff_delay_formula_witness :
    getExponentialBackoffDelay 3 7 100 120000 = min (100 * 2 ^ 3 + 7) 120000
    ∧ getExponentialBackoffDelay 3 7 100 120000 ≤ 120000
    ∧ (3 ≤ 10 → getExponentialBackoffDelay 3 7 100 120000 = 100 * 2 ^ 3 + 7) :=
  backoff_delay_formula 3 7 (by norm_num) (by norm_num)

/-- C8 counterexample: a supplied but empty locale produces no `kl`
parameter, refuting `kl = locale iff locale is supplied` — the code tests
JS truthiness, not presence. -/
theorem empty_locale_param_counterexample :
    (⟨some "", none, none, none, none⟩ : DuckDuckGoSearchOptions).locale = some ""
    ∧ (buildSearchUrl "query" ⟨some "", none, none, none, none⟩).params = [("q", "query")] :=
  ⟨rfl, rfl⟩

/-- C8 amended: the built URL targets the fixed HTML endpoint and carries
exactly the parameters `q` (always, with the query as value), `kl` (iff the
locale is supplied and non-empty), `s` (iff an offset is supplied, with
value `max 0 offset`), and `kp` (iff a safe-search level is supplied, with
its fixed code); no other parameter names occur. -/
theorem buildSearchUrl_params_characterization (query : String)
    (o : DuckDuckGoSearchOptions) :
    (buildSearchUrl query o).endpoint = DUCKDUCKGO_HTML_ENDPOINT
    ∧ (∀ v, ("q", v) ∈ (buildSearchUrl query o).params ↔ v = query)
    ∧ (∀ v, ("kl", v) ∈ (buildSearchUrl query o).params ↔ o.locale = some v ∧ v ≠ "")
    ∧ (∀ v, ("s", v) ∈ (buildSearchUrl query o).params ↔
        ∃ n, o.offset = some n ∧ v = toString (max 0 n))
    ∧ (∀ v, ("kp", v) ∈ (buildSearchUrl query o).params ↔
        ∃ level, o.safeSearch = some level ∧ v = SAFE_SEARCH_PARAM level)
    ∧ (∀ p ∈ (buildSearchUrl query o).params,
        p.1 = "q" ∨ p.1 = "kl" ∨ p.1 = "s" ∨ p.1 = "kp") := by
  obtain ⟨l, off, ss, mr, ua⟩ := o
  refine ⟨rfl, ?_, ?_, ?_, ?_, ?_⟩ <;>
    rcases l with _ | l <;> rcases off with _ | n <;> rcases ss with _ | level <;>
      first
        | (intro v
           by_cases hl : l = "" <;>
             rcases level <;>
               simp [buildSearchUrl, SAFE_SEARCH_PARAM, hl] <;>
                 aesop)
        | (intro v
           by_cases hl : l = "" <;>
             simp [buildSearchUrl, SAFE_SEARCH_PARAM, hl] <;>
               aesop)
        | (intro v
           rcases level <;>
             simp [buildSearchUrl, SAFE_SEARCH_PARAM] <;>
               aesop)
        | (intro v
           simp [buildSearchUrl, SAFE_SEARCH_PARAM] <;>
             aesop)
        | (intro p hp
           by_cases hl : l = "" <;>
             rcases level <;>
               revert hp <;>
                 simp [buildSearchUrl, SAFE_SEARCH_PARAM, hl] <;>
                   aesop)
        | (intro p hp
           by_cases hl : l = "" <;>
             revert hp <;>
               simp [buildSearchUrl, SAFE_SEARCH_PARAM, hl] <;>
                 aesop)
        | (intro p hp
           rcases level <;>
             revert hp <;>
               simp [buildSearchUrl, SAFE_SEARCH_PARAM] <;>
                 aesop)
        | (intro p hp
           revert hp <;>
             simp [buildSearchUrl, SAFE_SEARCH_PARAM] <;>
               aesop)

/-- Witness for C8 at a query with locale, offset and safe-search all set. -/
theorem buildSearchUrl_params_characterization_witness :
    (buildSearchUrl "hi" ⟨some "pt-pt", some (-3), some .strict, none, none⟩).endpoint
        = DUCKDUCKGO_HTML_ENDPOINT
    ∧ (∀ v, ("q", v) ∈ (buildSearchUrl "hi" ⟨some "pt-pt", some (-3), some .strict, none, none⟩).params ↔ v = "hi")
    ∧ (∀ v, ("kl", v) ∈ (buildSearchUrl "hi" ⟨some "pt-pt", some (-3), some .strict, none, none⟩).params ↔
        (⟨some "pt-pt", some (-3), some .strict, none, none⟩ : DuckDuckGoSearchOptions).locale = some v ∧ v ≠ "")
    ∧ (∀ v, ("s", v) ∈ (buildSearchUrl "hi" ⟨some "pt-pt", some (-3), some .strict, none, none⟩).params ↔
        ∃ n, (⟨some "pt-pt", some (-3), some .strict, none, none⟩ : DuckDuckGoSearchOptions).offset = some n ∧ v = toString (max 0 n))
    ∧ (∀ v, ("kp", v) ∈ (buildSearchUrl "hi" ⟨some "pt-pt", some (-3), some .strict, none, none⟩).params ↔
        ∃ level, (⟨some "pt-pt", some (-3), some .strict, none, none⟩ : DuckDuckGoSearchOptions).safeSearch = some level ∧ v = SAFE_SEARCH_PARAM level)
    ∧ (∀ p ∈ (buildSearchUrl "hi" ⟨some "pt-pt", some (-3), some .strict, none, none⟩).params,
        p.1 = "q" ∨ p.1 = "kl" ∨ p.1 = "s" ∨ p.1 = "kp") :=
  buildSearchUrl_params_characterization "hi" ⟨some "pt-pt", some (-3), some .strict, none, none⟩

/-- C3: for a query that trims to empty, or an explicit `maxResults ≤ 0`,
the call fails with the corresponding input error, leaves the shared state
(cookie jar and last-request timestamp) untouched, and produces no events
at all — no URL build, no rate-limiter wait, no fetch. -/
theorem validation_precedes_network (query : String)
    (options : DuckDuckGoSearchOptions) (env : SearchEnv) (st : SearchState)
    (h : jsTrim query = "" ∨ ∃ m, options.maxResults = some m ∧ m ≤ 0) :
    ∃ msg, searchDuckDuckGo query options env st = (.error (.ddgError msg), st, [])
      ∧ (msg = "Search query must not be empty" ∨ msg = "maxResults must be greater than 0") := by
  by_cases hq : jsTrim query = ""
  · exact ⟨"Search query must not be empty", by simp [searchDuckDuckGo, hq], Or.inl rfl⟩
  · rcases h with h | ⟨m, hm, hm0⟩
    · exact absurd h hq
    · refine ⟨"maxResults must be greater than 0", ?_, Or.inr rfl⟩
      simp [searchDuckDuckGo, hq, hm, hm0]

/-- Witness for C3 at an all-whitespace query. -/
theorem validation_precedes_network_witness :
    ∃ msg, searchDuckDuckGo "   " noOptions envHttp500 initialState
        = (.error (.ddgError msg), initialState, [])
      ∧ (msg = "Search query must not be empty" ∨ msg = "maxResults must be greater than 0") :=
  validation_precedes_network "   " noOptions envHttp500 initialState (Or.inl (by decide))

/-- C10: every error outcome of the search is a `DuckDuckGoSearchError`; it
is one of the two validation errors, thrown directly with its specific
message and no cause (and, for the empty-query error, with the state left
untouched), or the uniform outer wrapper `Failed to search DuckDuckGo`
holding the underlying error as its cause. In particular the
attempts-exceeded condition never appears as the top-level error. -/
theorem search_error_shape (query : String) (options : DuckDuckGoSearchOptions)
    (env : SearchEnv) (st : SearchState) (e : JsErrorModel)
    (h : (searchDuckDuckGo query options env st).1 = .error e) :
    ((e = .ddgError "Search query must not be empty" ∧ jsTrim query = "")
      ∨ e = .ddgError "maxResults must be greater than 0"
      ∨ (∃ cause, e = .ddgErrorWith "Failed to search DuckDuckGo" cause))
    ∧ e ≠ .ddgError "Max attempts exceeded" := by
  by_cases hq : jsTrim query = ""
  · simp [searchDuckDuckGo, hq] at h
    subst h
    exact ⟨Or.inl ⟨rfl, hq⟩, by simp⟩
  · by_cases hm : options.maxResults.getD 10 ≤ 0
    · simp [searchDuckDuckGo, hq, hm] at h
      subst h
      exact ⟨Or.inr (Or.inl rfl), by simp⟩
    · rcases hl : searchRetryLoop (jsTrim query) options env (options.maxResults.getD 10) 0 MAX_RETRIES st with
        ⟨res, st1, events⟩
      rcases res with err | results
      · simp [searchDuckDuckGo, hq, hm, hl] at h
        subst h
        exact ⟨Or.inr (Or.inr ⟨err, rfl⟩), by simp⟩
      · simp [searchDuckDuckGo, hq, hm, hl] at h

/-- Witness for C10 at a transport failure: the error is the wrapper with
the status error as cause. -/
theorem search_error_shape_witness :
    (((.ddgErrorWith "Failed to search DuckDuckGo" (.jsError "DuckDuckGo responded with status 500") : JsErrorModel)
          = .ddgError "Search query must not be empty" ∧ jsTrim "x" = "")
      ∨ (.ddgErrorWith "Failed to search DuckDuckGo" (.jsError "DuckDuckGo responded with status 500") : JsErrorModel)
          = .ddgError "maxResults must be greater than 0"
      ∨ (∃ cause, (.ddgErrorWith "Failed to search DuckDuckGo" (.jsError "DuckDuckGo responded with status 500") : JsErrorModel)
          = .ddgErrorWith "Failed to search DuckDuckGo" cause))
    ∧ (.ddgErrorWith "Failed to search DuckDuckGo" (.jsError "DuckDuckGo responded with status 500") : JsErrorModel)
        ≠ .ddgError "Max attempts exceeded" :=
  search_error_shape "x" noOptions envHttp500 initialState
    (.ddgErrorWith "Failed to search DuckDuckGo" (.jsError "DuckDuckGo responded with status 500"))
    rfl

/-- C2: when every fetched page's markup contains the marker
`challenge-form`, the call performs exactly `MAX_RETRIES = 5` fetches at
attempt indices 0..4, sleeps the backoff delay at each of those attempt
indices, and fails with the attempts-exceeded error (carried, per the
orchestrator's catch-all, as the cause of the uniform outer wrapper); the
event trace shows no sixth fetch. -/
theorem challenge_exhaustion_five_fetches (query : String)
    (options : DuckDuckGoSearchOptions) (env : SearchEnv) (st : SearchState)
    (hq : jsTrim query ≠ "") (hm : 0 < options.maxResults.getD 10)
    (hch : ∀ i, i < MAX_RETRIES → ∃ page setCookies,
        env.fetchResult i = .success page setCookies
        ∧ jsIncludes page.raw "challenge-form" = true) :
    (searchDuckDuckGo query options env st).1
        = .error (.ddgErrorWith "Failed to search DuckDuckGo" (.ddgError "Max attempts exceeded"))
    ∧ (searchDuckDuckGo query options env st).2.2
        = [.urlBuilt (buildSearchUrl (jsTrim query) options), .rateLimitWait, .fetchRequest 0,
           .backoffSleep 0 (getExponentialBackoffDelay 0 (env.backoffJitter 0) 100 120000),
           .urlBuilt (buildSearchUrl (jsTrim query) options), .rateLimitWait, .fetchRequest 1,
           .backoffSleep 1 (getExponentialBackoffDelay 1 (env.backoffJitter 1) 100 120000),
           .urlBuilt (buildSearchUrl (jsTrim query) options), .rateLimitWait, .fetchRequest 2,
           .backoffSleep 2 (getExponentialBackoffDelay 2 (env.backoffJitter 2) 100 120000),
           .urlBuilt (buildSearchUrl (jsTrim query) options), .rateLimitWait, .fetchRequest 3,
           .backoffSleep 3 (getExponentialBackoffDelay 3 (env.backoffJitter 3) 100 120000),
           .urlBuilt (buildSearchUrl (jsTrim query) options), .rateLimitWait, .fetchRequest 4,
           .backoffSleep 4 (getExponentialBackoffDelay 4 (env.backoffJitter 4) 100 120000)] := by
  obtain ⟨p0, c0, hf0, hc0⟩ := hch 0 (by norm_num [MAX_RETRIES])
  obtain ⟨p1, c1, hf1, hc1⟩ := hch 1 (by norm_num [MAX_RETRIES])
  obtain ⟨p2, c2, hf2, hc2⟩ := hch 2 (by norm_num [MAX_RETRIES])
  obtain ⟨p3, c3, hf3, hc3⟩ := hch 3 (by norm_num [MAX_RETRIES])
  obtain ⟨p4, c4, hf4, hc4⟩ := hch 4 (by norm_num [MAX_RETRIES])
  have hm2 : ¬ options.maxResults.getD 10 ≤ 0 := not_le.mpr hm
  constructor <;>
    simp [searchDuckDuckGo, MAX_RETRIES, searchRetryLoop, requestSearchPage, hq, hm2,
      hf0, hc0, hf1, hc1, hf2, hc2, hf3, hc3, hf4, hc4]

/-- Witness for C2 in an environment whose every fetch is a challenge. -/
theorem challenge_exhaustion_five_fetches_witness :
    (searchDuckDuckGo "example" noOptions envChallenge initialState).1
        = .error (.ddgErrorWith "Failed to search DuckDuckGo" (.ddgError "Max attempts exceeded"))
    ∧ (searchDuckDuckGo "example" noOptions envChallenge initialState).2.2
        = [.urlBuilt (buildSearchUrl (jsTrim "example") noOptions), .rateLimitWait, .fetchRequest 0,
           .backoffSleep 0 (getExponentialBackoffDelay 0 (envChallenge.backoffJitter 0) 100 120000),
           .urlBuilt (buildSearchUrl (jsTrim "example") noOptions), .rateLimitWait, .fetchRequest 1,
           .backoffSleep 1 (getExponentialBackoffDelay 1 (envChallenge.backoffJitter 1) 100 120000),
           .urlBuilt (buildSearchUrl (jsTrim "example") noOptions), .rateLimitWait, .fetchRequest 2,
           .backoffSleep 2 (getExponentialBackoffDelay 2 (envChallenge.backoffJitter 2) 100 120000),
           .urlBuilt (buildSearchUrl (jsTrim "example") noOptions), .rateLimitWait, .fetchRequest 3,
           .backoffSleep 3 (getExponentialBackoffDelay 3 (envChallenge.backoffJitter 3) 100 120000),
           .urlBuilt (buildSearchUrl (jsTrim "example") noOptions), .rateLimitWait, .fetchRequest 4,
           .backoffSleep 4 (getExponentialBackoffDelay 4 (envChallenge.backoffJitter 4) 100 120000)] :=
  challenge_exhaustion_five_fetches "example" noOptions envChallenge initialState
    (by decide) (by decide)
    (fun i _ => ⟨challengePage, [], rfl, rfl⟩)

/-- Every value held in the jar is non-empty and not `deleted` in any
letter case. -/
def GoodJar (jar : List (String × String)) : Prop :=
  ∀ p ∈ jar, p.2 ≠ "" ∧ jsToLowerCase p.2 ≠ "deleted"

theorem mem_mapSet {jar : List (String × String)} {k v : String} {p : String × String}
    (h : p ∈ mapSet jar k v) : p ∈ jar ∨ p = (k, v) := by
  unfold mapSet at h
  by_cases hmem : jar.any (fun q => q.1 == k) = true
  · rw [if_pos hmem] at h
    rcases List.mem_map.mp h with ⟨q, hq, hqe⟩
    by_cases hk : (q.1 == k) = true
    · rw [if_pos hk] at hqe
      exact Or.inr hqe.symm
    · rw [if_neg hk] at hqe
      exact Or.inl (hqe ▸ hq)
  · rw [if_neg hmem] at h
    rcases List.mem_append.mp h with h | h
    · exact Or.inl h
    · exact Or.inr (List.mem_singleton.mp h)

theorem mem_mapDelete {jar : List (String × String)} {k : String} {p : String × String}
    (h : p ∈ mapDelete jar k) : p ∈ jar :=
  (List.mem_filter.mp h).1

theorem goodJar_updateCookieJar {jar : List (String × String)}
    (hg : GoodJar jar) (cookies : List String) : GoodJar (updateCookieJar jar cookies) := by
  induction cookies generalizing jar with
  | nil => exact hg
  | cons cookie rest ih =>
    have hstep : GoodJar
        (match parseCookie cookie with
          | none => jar
          | some nv =>
            if nv.2 = "" ∨ jsToLowerCase nv.2 = "deleted" then mapDelete jar nv.1
            else mapSet jar nv.1 nv.2) := by
      rcases hp : parseCookie cookie with _ | nv
      · exact hg
      · by_cases hbad : nv.2 = "" ∨ jsToLowerCase nv.2 = "deleted"
        · simp only [hbad, if_pos]
          exact fun p hpm => hg p (mem_mapDelete hpm)
        · simp only [hbad, if_neg, not_false_iff]
          intro p hpm
          rcases mem_mapSet hpm with hin | heq
          · exact hg p hin
          · push_neg at hbad
            exact heq ▸ ⟨hbad.1, hbad.2⟩
    exact ih hstep

theorem goodJar_foldl (batches : List (List String)) {jar : List (String × String)}
    (hg : GoodJar jar) : GoodJar (batches.foldl updateCookieJar jar) := by
  induction batches generalizing jar with
  | nil => exact hg
  | cons b rest ih => exact ih (goodJar_updateCookieJar hg b)

/-- C6: after any sequence of set-cookie ingestions starting from the empty
jar, every entry's value is non-empty and not case-insensitively `deleted`
— ingestion parses each entry by splitting at the first `;` then the first
`=` (entries without an `=` being ignored) and removes, rather than
stores, a name with an empty or `deleted` value; the cookie header is built
exactly from the jar's entries, so such cookies are absent from it. -/
theorem cookieJar_never_holds_deleted (batches : List (List String)) (n v : String)
    (h : (n, v) ∈ batches.foldl updateCookieJar []) :
    v ≠ "" ∧ jsToLowerCase v ≠ "deleted"
    ∧ ∀ header, buildCookieHeader (batches.foldl updateCookieJar []) = some header →
        header = jsJoin "; " ((batches.foldl updateCookieJar []).map (fun p => p.1 ++ "=" ++ p.2)) := by
  have hgood : GoodJar (batches.foldl updateCookieJar []) :=
    goodJar_foldl batches (by intro p hp; simp at hp)
  have hv := hgood (n, v) h
  refine ⟨hv.1, hv.2, fun header hh => ?_⟩
  unfold buildCookieHeader at hh
  by_cases he : batches.foldl updateCookieJar [] = []
  · simp [he] at hh
  · simp [he] at hh
    exact hh.symm

/-- Witness for C6: after ingesting a session cookie and then a
`deleted` re-send of another name, the surviving entry's value is good. -/
theorem cookieJar_never_holds_deleted_witness :
    ("session" : String) ≠ "" ∧ jsToLowerCase "123" ≠ "deleted"
    ∧ ∀ header,
        buildCookieHeader ([["session=123; Path=/", "b= 2 "], ["b=DELETED; Max-Age=0"]].foldl updateCookieJar [])
            = some header →
        header = jsJoin "; "
          (([["session=123; Path=/", "b= 2 "], ["b=DELETED; Max-Age=0"]].foldl updateCookieJar []).map
            (fun p => p.1 ++ "=" ++ p.2)) := by
  have h := cookieJar_never_holds_deleted
    [["session=123; Path=/", "b= 2 "], ["b=DELETED; Max-Age=0"]] "session" "123" (by decide)
  exact ⟨by decide, h.2.1, h.2.2⟩

theorem enforceWait_nonneg {last now jitter : ℚ} (hln : last ≤ now) (hj : 0 ≤ jitter) :
    0 ≤ enforceWait last now jitter := by
  unfold enforceWait MIN_REQUEST_INTERVAL_MS
  split
  · exact le_refl 0
  · split
    · linarith
    · exact le_refl 0

theorem validObservation_start_pos {last : ℚ} {o : RequestObservation}
    (h : ValidObservation last o) : 0 < o.start := by
  obtain ⟨hn, hln, hj, hs⟩ := h
  have := enforceWait_nonneg hln hj
  linarith

theorem validObservation_gap {last : ℚ} {o : RequestObservation}
    (h : ValidObservation last o) (hlast : 0 < last) :
    last + MIN_REQUEST_INTERVAL_MS ≤ o.start := by
  obtain ⟨hn, hln, hj, hs⟩ := h
  unfold enforceWait at hs
  rw [if_neg (ne_of_gt hlast)] at hs
  unfold MIN_REQUEST_INTERVAL_MS at hs ⊢
  by_cases hlt : o.now - last < 800
  · rw [if_pos hlt] at hs
    linarith
  · rw [if_neg hlt] at hs
    push_neg at hlt
    linarith

/-- C7: along any sequence of requests through the rate limiter in which
each observation is valid (positive monotone clock, non-negative jitter,
and a post-wait resume no earlier than entry time plus the computed wait —
the wait being the remaining interval plus jitter whenever less than the
minimum interval has elapsed since the recorded timestamp), the recorded
start times of consecutive requests are at least `MIN_REQUEST_INTERVAL_MS`
apart; the timestamp is re-recorded before every request by construction of
the trace. -/
theorem request_gap_at_least_min_interval (last : ℚ) (obs : List RequestObservation)
    (h : ValidTrace last obs) :
    GapsAtLeast MIN_REQUEST_INTERVAL_MS (traceStarts last obs) := by
  induction obs generalizing last with
  | nil => trivial
  | cons o rest ih =>
    obtain ⟨ho, hrest⟩ := h
    rcases rest with _ | ⟨o2, rest2⟩
    · trivial
    · obtain ⟨ho2, hrest2⟩ := hrest
      refine ⟨?_, ih o.start ⟨ho2, hrest2⟩⟩
      exact validObservation_gap ho2 (validObservation_start_pos ho)

/-- Witness for C7 on a concrete two-request trace: starts 1000 and 1850
are 850 ≥ 800 apart. -/
theorem request_gap_at_least_min_interval_witness :
    GapsAtLeast MIN_REQUEST_INTERVAL_MS (traceStarts 0 [⟨1000, 0, 1000⟩, ⟨1100, 50, 1850⟩]) :=
  request_gap_at_least_min_interval 0 [⟨1000, 0, 1000⟩, ⟨1100, 50, 1850⟩]
    ⟨⟨by norm_num, by norm_num, le_refl 0, by norm_num [enforceWait]⟩,
     ⟨by norm_num, by norm_num, by norm_num,
      by norm_num [enforceWait, MIN_REQUEST_INTERVAL_MS]⟩, trivial⟩

theorem parseResultsGo_cons (M : Int) (c : ResultContainer)
    (rest : List ResultContainer) (acc : List DuckDuckGoResult) :
    parseResultsGo M (c :: rest) acc =
      if M ≤ (acc.length : Int) then acc
      else
        match c.href with
        | none => parseResultsGo M rest acc
        | some href =>
          if href = "" ∨ jsTrim c.titleText = "" then parseResultsGo M rest acc
          else
            match extractUrl href with
            | none => parseResultsGo M rest acc
            | some url =>
              parseResultsGo M rest
                (acc ++ [{ title := jsTrim c.titleText, url := url,
                           description := jsTrim c.snippetText }]) := rfl

theorem parseResultsGo_stop {M : Int} {l : List ResultContainer} {acc : List DuckDuckGoResult}
    (h : M ≤ (acc.length : Int)) : parseResultsGo M l acc = acc := by
  cases l with
  | nil => rfl
  | cons c rest =>
    rw [parseResultsGo_cons, if_pos h]

theorem parseResultsGo_shift (l : List ResultContainer) :
    ∀ (M : Int) (acc : List DuckDuckGoResult),
      parseResultsGo M l acc = acc ++ parseResultsGo (M - acc.length) l [] := by
  induction l with
  | nil =>
    intro M acc
    simp [parseResultsGo]
  | cons c rest ih =>
    intro M acc
    by_cases hle : M ≤ (acc.length : Int)
    · rw [parseResultsGo_stop hle, parseResultsGo_stop (by simpa using by omega), List.append_nil]
    · rw [parseResultsGo_cons, parseResultsGo_cons,
        if_neg hle, if_neg (by simpa using by omega)]
      rcases hc : c.href with _ | href
      · simp only []
        rw [ih M acc]
      · simp only []
        by_cases h1 : href = "" ∨ jsTrim c.titleText = ""
        · rw [if_pos h1, if_pos h1, ih M acc]
        · rw [if_neg h1, if_neg h1]
          rcases he : extractUrl href with _ | url
          · simp only []
            rw [ih M acc]
          · simp only []
            rw [ih M _, ih (M - (acc.length : Int)) _]
            simp only [List.length_append, List.length_singleton, List.length_nil,
              List.nil_append, Nat.cast_add, Nat.cast_one]
            rw [List.append_assoc]
            have harith : M - ((acc.length : Int) + 1) = M - (acc.length : Int) - 1 := by ring
            rw [harith]

theorem parseResults_allWellFormed (containers : List ResultContainer) :
    ∀ M : Int, (∀ c ∈ containers, wellFormedContainer c = true) →
      parseResults containers M = (containers.take M.toNat).map containerRecord := by
  unfold parseResults
  induction containers with
  | nil =>
    intro M _
    simp [parseResultsGo]
  | cons c rest ih =>
    intro M h
    by_cases hM : M ≤ 0
    · rw [parseResultsGo_stop (by simpa using hM)]
      rw [Int.toNat_of_nonpos hM]
      simp
    · have hc := h c (List.mem_cons_self c rest)
      unfold wellFormedContainer at hc
      rcases hhref : c.href with _ | href
      · rw [hhref] at hc
        exact absurd hc (by simp)
      · rw [hhref] at hc
        simp only [Bool.and_eq_true, bne_iff_ne, ne_eq, Option.isSome_iff_exists] at hc
        obtain ⟨⟨hne, hti⟩, url, he⟩ := hc
        have h1 : ¬ (href = "" ∨ jsTrim c.titleText = "") := by
          push_neg
          exact ⟨hne, hti⟩
        rw [parseResultsGo_cons, if_neg (by simpa using hM), hhref]
        simp only []
        rw [if_neg h1, he]
        simp only []
        rw [parseResultsGo_shift rest]
        simp only [List.nil_append, List.length_singleton, Nat.cast_one, List.singleton_append]
        rw [ih (M - 1) (fun d hd => h d (List.mem_cons_of_mem c hd))]
        have htn : M.toNat = (M - 1).toNat + 1 := by omega
        rw [htn, List.take_succ_cons, List.map_cons]
        congr 1
        unfold containerRecord
        rw [hhref]
        simp [he]

theorem parseResultsGo_skip {bad : ResultContainer}
    (hbad : wellFormedContainer bad = false) (post : List ResultContainer) :
    ∀ (pre : List ResultContainer) (M : Int) (acc : List DuckDuckGoResult),
      parseResultsGo M (pre ++ bad :: post) acc = parseResultsGo M (pre ++ post) acc := by
  have hbadskip : ∀ (M : Int) (acc : List DuckDuckGoResult),
      ¬ M ≤ (acc.length : Int) → parseResultsGo M (bad :: post) acc = parseResultsGo M post acc := by
    intro M acc hle
    unfold wellFormedContainer at hbad
    rcases hb : bad.href with _ | href
    · rw [parseResultsGo_cons, if_neg hle, hb]
    · rw [hb] at hbad
      rw [parseResultsGo_cons, if_neg hle, hb]
      simp only []
      by_cases h1 : href = "" ∨ jsTrim bad.titleText = ""
      · rw [if_pos h1]
      · rw [if_neg h1]
        have hnone : extractUrl href = none := by
          rcases he : extractUrl href with _ | u
          · rfl
          · exfalso
            push_neg at h1
            simp [he, h1.1, h1.2] at hbad
        rw [hnone]
  intro pre
  induction pre with
  | nil =>
    intro M acc
    by_cases hle : M ≤ (acc.length : Int)
    · rw [parseResultsGo_stop hle, parseResultsGo_stop hle]
    · simpa using hbadskip M acc hle
  | cons p pre2 ih =>
    intro M acc
    by_cases hle : M ≤ (acc.length : Int)
    · rw [parseResultsGo_stop hle, parseResultsGo_stop hle]
    · show parseResultsGo M (p :: (pre2 ++ bad :: post)) acc
          = parseResultsGo M (p :: (pre2 ++ post)) acc
      rw [parseResultsGo_cons, parseResultsGo_cons, if_neg hle, if_neg hle]
      rcases hp : p.href with _ | href
      · exact ih M acc
      · simp only []
        by_cases h1 : href = "" ∨ jsTrim p.titleText = ""
        · rw [if_pos h1, if_pos h1]
          exact ih M acc
        · rw [if_neg h1, if_neg h1]
          rcases he : extractUrl href with _ | url
          · simp only []
            exact ih M acc
          · simp only []
            exact ih M _

/-- C4: when every container is well-formed (title link with non-empty
href, non-empty trimmed title, resolvable href), extraction returns the
records of the first `min N M` containers in document order; and removing
a malformed container from anywhere in the list leaves the output of
extraction unchanged — it is skipped without aborting the rest. -/
theorem parseResults_wellFormed_truncation (containers : List ResultContainer) (M : Int)
    (hwf : ∀ c ∈ containers, wellFormedContainer c = true) :
    parseResults containers M = (containers.take M.toNat).map containerRecord
    ∧ (parseResults containers M).length = min containers.length M.toNat
    ∧ (∀ pre bad post, wellFormedContainer bad = false →
        parseResults (pre ++ bad :: post) M = parseResults (pre ++ post) M) := by
  refine ⟨parseResults_allWellFormed containers M hwf, ?_, ?_⟩
  · rw [parseResults_allWellFormed containers M hwf]
    rw [List.length_map, List.length_take]
    exact min_comm _ _
  · intro pre bad post hbad
    exact parseResultsGo_skip hbad post pre M []

/-- Witness for C4: three well-formed containers and `maxResults = 2`
yield the first two records; dropping a malformed container in the middle
changes nothing. -/
theorem parseResults_wellFormed_truncation_witness :
    parseResults [⟨some "https://a.example/", "A", "da"⟩, ⟨some "https://b.example/", "B", "db"⟩,
        ⟨some "https://c.example/", "C", "dc"⟩] 2
      = ([⟨some "https://a.example/", "A", "da"⟩, ⟨some "https://b.example/", "B", "db"⟩,
          ⟨some "https://c.example/", "C", "dc"⟩].take (2 : Int).toNat).map containerRecord
    ∧ (parseResults [⟨some "https://a.example/", "A", "da"⟩, ⟨some "https://b.example/", "B", "db"⟩,
        ⟨some "https://c.example/", "C", "dc"⟩] 2).length
      = min ([⟨some "https://a.example/", "A", "da"⟩, ⟨some "https://b.example/", "B", "db"⟩,
          ⟨some "https://c.example/", "C", "dc"⟩] : List ResultContainer).length (2 : Int).toNat
    ∧ (∀ pre bad post, wellFormedContainer bad = false →
        parseResults (pre ++ bad :: post) 2 = parseResults (pre ++ post) 2) :=
  parseResults_wellFormed_truncation
    [⟨some "https://a.example/", "A", "da"⟩, ⟨some "https://b.example/", "B", "db"⟩,
     ⟨some "https://c.example/", "C", "dc"⟩] 2 (by decide)

theorem parseResultsGo_mem (l : List ResultContainer) :
    ∀ (M : Int) (acc : List DuckDuckGoResult) (r : DuckDuckGoResult),
      r ∈ parseResultsGo M l acc → r ∈ acc ∨ ∃ c ∈ l, ProducedFrom c r := by
  induction l with
  | nil =>
    intro M acc r h
    exact Or.inl h
  | cons c rest ih =>
    intro M acc r h
    rw [parseResultsGo_cons] at h
    by_cases hle : M ≤ (acc.length : Int)
    · rw [if_pos hle] at h
      exact Or.inl h
    · rw [if_neg hle] at h
      rcases hc : c.href with _ | href
      · rw [hc] at h
        rcases ih M acc r h with hin | ⟨d, hd, hp⟩
        · exact Or.inl hin
        · exact Or.inr ⟨d, List.mem_cons_of_mem c hd, hp⟩
      · rw [hc] at h
        simp only [] at h
        by_cases h1 : href = "" ∨ jsTrim c.titleText = ""
        · rw [if_pos h1] at h
          rcases ih M acc r h with hin | ⟨d, hd, hp⟩
          · exact Or.inl hin
          · exact Or.inr ⟨d, List.mem_cons_of_mem c hd, hp⟩
        · rw [if_neg h1] at h
          rcases he : extractUrl href with _ | url
          · rw [he] at h
            rcases ih M acc r h with hin | ⟨d, hd, hp⟩
            · exact Or.inl hin
            · exact Or.inr ⟨d, List.mem_cons_of_mem c hd, hp⟩
          · rw [he] at h
            simp only [] at h
            rcases ih M _ r h with hin | ⟨d, hd, hp⟩
            · rcases List.mem_append.mp hin with hin2 | hin2
              · exact Or.inl hin2
              · push_neg at h1
                refine Or.inr ⟨c, List.mem_cons_self c rest, href, hc, h1.1, h1.2, ?_⟩
                rw [List.mem_singleton.mp hin2]
                exact ⟨rfl, rfl, he⟩
            · exact Or.inr ⟨d, List.mem_cons_of_mem c hd, hp⟩

theorem extractUrl_redirect (href : String) (h : jsStartsWith href "/" = true) :
    extractUrl href =
      match ddgSelectedParam href with
      | none => none
      | some enc => if enc = "" then none else decodeURIComponentM enc := by
  unfold extractUrl ddgSelectedParam
  rw [if_pos h]
  rcases hq : (jsSplitChar href '?').get? 1 with _ | qs
  · rfl
  · simp only []
    by_cases hqe : qs = ""
    · rw [if_pos hqe, if_pos hqe]
    · rw [if_neg hqe, if_neg hqe]

/-- C1 counterexample: a container whose title-link href is the relative
path `foo.html` (not starting with `/`) yields a record whose url is that
raw relative path — not an absolute URL — refuting the unconditional
invariant. -/
theorem relative_href_passthrough_counterexample :
    parseResults [⟨some "foo.html", "Example", ""⟩] 10
        = [{ title := "Example", url := "foo.html", description := "" }]
    ∧ isAbsoluteUrl "foo.html" = false := by
  constructor
  · rfl
  · rfl

/-- C1 amended: every record comes from a container with a non-empty href;
when that href starts with `/`, the url is the percent-decoded `uddg`/`rut`
parameter value (never the raw redirect wrapper); when it does not start
with `/`, the url is the href verbatim — and is therefore only as absolute
or decoded as the markup's own href. -/
theorem extractedUrl_provenance (containers : List ResultContainer) (M : Int)
    (r : DuckDuckGoResult) (h : r ∈ parseResults containers M) :
    ∃ c ∈ containers, ∃ href, c.href = some href ∧ href ≠ ""
      ∧ r.title = jsTrim c.titleText
      ∧ extractUrl href = some r.url
      ∧ (jsStartsWith href "/" = true →
          ∃ enc, ddgSelectedParam href = some enc ∧ enc ≠ ""
            ∧ decodeURIComponentM enc = some r.url)
      ∧ (jsStartsWith href "/" = false → r.url = href) := by
  rcases parseResultsGo_mem containers M [] r h with hin | ⟨c, hc, href, hhref, hne, hti, hteq, hdeq, hurl⟩
  · exact absurd hin (by simp)
  · refine ⟨c, hc, href, hhref, hne, hteq, hurl, ?_, ?_⟩
    · intro hs
      rw [extractUrl_redirect href hs] at hurl
      rcases hd : ddgSelectedParam href with _ | enc
      · rw [hd] at hurl
        exact absurd hurl (by simp)
      · rw [hd] at hurl
        simp only [] at hurl
        by_cases henc : enc = ""
        · rw [if_pos henc] at hurl
          exact absurd hurl (by simp)
        · rw [if_neg henc] at hurl
          exact ⟨enc, rfl, henc, hurl⟩
    · intro hs
      unfold extractUrl at hurl
      rw [hs] at hurl
      simp only [Bool.false_eq_true, if_false] at hurl
      exact (Option.some_inj.mp hurl).symm

/-- Witness for C1 at a redirect-wrapped and a verbatim href. -/
theorem extractedUrl_provenance_witness :
    ∃ c ∈ [(⟨some "/l/?kh=1&uddg=https%3A%2F%2Fexample.com%2Flink", "Example Domain", "d"⟩ : ResultContainer)],
      ∃ href, c.href = some href ∧ href ≠ ""
      ∧ ({ title := "Example Domain", url := "https://example.com/link", description := "d" } : DuckDuckGoResult).title = jsTrim c.titleText
      ∧ extractUrl href = some ({ title := "Example Domain", url := "https://example.com/link", description := "d" } : DuckDuckGoResult).url
      ∧ (jsStartsWith href "/" = true →
          ∃ enc, ddgSelectedParam href = some enc ∧ enc ≠ ""
            ∧ decodeURIComponentM enc = some ({ title := "Example Domain", url := "https://example.com/link", description := "d" } : DuckDuckGoResult).url)
      ∧ (jsStartsWith href "/" = false →
          ({ title := "Example Domain", url := "https://example.com/link", description := "d" } : DuckDuckGoResult).url = href) :=
  extractedUrl_provenance
    [⟨some "/l/?kh=1&uddg=https%3A%2F%2Fexample.com%2Flink", "Example Domain", "d"⟩] 10
    { title := "Example Domain", url := "https://example.com/link", description := "d" }
    (by decide)

/-- C5 counterexample: for the href `/l/?uddg=` the `uddg` parameter is
present (with empty value), so none of the claim's skip conditions apply
and the claim-worded resolution produces the decoded value `""`; the code
skips the container instead, because an empty selected value fails the
JS-truthiness test before decoding. -/
theorem emptyUddg_resolution_counterexample :
    extractUrl "/l/?uddg=" = none
    ∧ specLinkResolution "/l/?uddg=" = some ""
    ∧ qsGet (parseURLSearchParams "uddg=") "uddg" = some "" := by
  refine ⟨?_, ?_, ?_⟩ <;> rfl

/-- C5 amended: an href not starting with `/` is used verbatim; an href
starting with `/` resolves to the percent-decode of the selected parameter
value — `uddg`, with `rut` consulted only when `uddg` is absent (an empty
`uddg` value blocks the fallback) — and the container is skipped when the
href has no (non-empty) query string, when neither parameter is present,
when the selected value is empty, or when percent-decoding fails. -/
theorem extractUrl_resolution_cases (rawHref : String) :
    (jsStartsWith rawHref "/" = false → extractUrl rawHref = some rawHref)
    ∧ (jsStartsWith rawHref "/" = true →
        extractUrl rawHref =
          match ddgSelectedParam rawHref with
          | none => none
          | some enc => if enc = "" then none else decodeURIComponentM enc)
    ∧ (ddgSelectedParam rawHref = none ↔
        (jsSplitChar rawHref '?').get? 1 = none
        ∨ (jsSplitChar rawHref '?').get? 1 = some ""
        ∨ (∃ qs, (jsSplitChar rawHref '?').get? 1 = some qs ∧ qs ≠ ""
            ∧ qsGet (parseURLSearchParams qs) "uddg" = none
            ∧ qsGet (parseURLSearchParams qs) "rut" = none)) := by
  refine ⟨?_, extractUrl_redirect rawHref, ?_⟩
  · intro hs
    unfold extractUrl
    rw [hs]
    simp
  · unfold ddgSelectedParam
    rcases hq : (jsSplitChar rawHref '?').get? 1 with _ | qs
    · simp
    · simp only []
      by_cases hqe : qs = ""
      · subst hqe
        simp
      · rw [if_neg hqe]
        rcases hu : qsGet (parseURLSearchParams qs) "uddg" with _ | u
        · rcases hr : qsGet (parseURLSearchParams qs) "rut" with _ | rv
          · simp [Option.orElse, hu, hr, hqe]
          · simp [Option.orElse, hu, hr, hqe]
        · simp [Option.orElse, hu, hqe]

/-- Witness for C5: a verbatim absolute href and a decoded redirect href. -/
theorem extractUrl_resolution_cases_witness :
    extractUrl "https://example.org/page" = some "https://example.org/page"
    ∧ extractUrl "/l/?kh=1&uddg=https%3A%2F%2Fexample.com%2Flink" = some "https://example.com/link" :=
  ⟨(extractUrl_resolution_cases "https://example.org/page").1 rfl, by rfl⟩

end DDG
